import Mathlib

/-!
Shallow embedding of `bench/fasttimer/__init__.py` from the kuroko
benchmark scripts, together with theorems settling the spec's claims
about it.

The Python source is:

```
try:
    from ._fasttimer import timeit
except:
    (here the ffi module is imported)
    path = __file__.split("/")[:-1]
    if not path: path = "."
    else: path = "/".join(path)
    lib = ffi.open(path + "/_mpytimer.so")
    _timeit = lib.func("d","timeit","Ci")
    def timeit(callback,number=1000000):
        cb = ffi.callback("v",callback,"")
        return _timeit(cb,number)
```
(string quotes are shown double here; the source uses Python single quotes)

The embedding makes the effects of the ffi layer observable as an event
trace: opening a library, resolving a symbol, constructing a trampoline,
and invoking the resolved native symbol each emit one event.  Wall-clock
time is modelled as rational seconds threaded through the callable: a
zero-argument Python callable is modelled by its effect on the clock
(it returns at a later time, or raises).
-/

namespace Fasttimer

/-- Python exception value, identified by the name of its class
(e.g. `"ImportError"`, `"ValueError"`).  The bare `except:` of the source
catches every one of these, whatever the kind. -/
structure PyExn where
  kind : String
deriving DecidableEq, Repr

/-- Wall-clock time, in rational seconds. -/
abbrev Time := ℚ

/-- A zero-argument Python callable, modelled by its observable effect on
the wall clock: invoked at time `t` it either returns normally at some
time `t'` or raises an exception. -/
abbrev Callback := Time → Except PyExn Time

/-- A native-callable trampoline produced by `ffi.callback("v", callback, "")`:
a freshly generated adapter (identified by `id`, drawn from an allocation
counter) that lets native code invoke the high-level callable `wraps`. -/
structure Trampoline where
  id : Nat
  wraps : Callback

/-- Observable ffi-layer events emitted while loading the module and while
running the fallback `timeit`. -/
inductive Event where
  /-- Call of `ffi.open(path)`. -/
  | openLib (path : String)
  /-- Call of `lib.func(ret, name, argsig)` on library handle `lib`. -/
  | funcLookup (lib : Nat) (ret : String) (name : String) (argsig : String)
  /-- Call of `ffi.callback(retsig, callback, extra)` returning the
  trampoline `trampId`. -/
  | mkCallback (retsig : String) (trampId : Nat) (extra : String)
  /-- Invocation of the resolved native symbol `sym` with arguments
  `(trampId, number)`. -/
  | callNative (sym : Nat) (trampId : Nat) (number : Nat)
deriving DecidableEq, Repr

/-- Module-level state bound by the `except:` branch: the opened library
handle (source variable `lib`) and the resolved native symbol
(source variable `_timeit`), each represented by an abstract handle. -/
structure ModuleState where
  lib : Nat
  timeitSym : Nat
deriving DecidableEq, Repr

/-- The external `ffi` module, as seen by the source: whether `import ffi`
succeeds (and the exception it raises when it does not), what `ffi.open`
returns for a path, and what `lib.func` returns for a lookup. -/
structure FFIEnv where
  importOk : Bool
  importErr : PyExn
  openLib : String → Except PyExn Nat
  func : Nat → String → String → String → Except PyExn Nat

/-- Python's `str.split` with a one-character separator, on the string's
character list: splitting on every occurrence of `c`, keeping empty
pieces, so that `splitCh c` of the empty list is `[[]]`. -/
def splitCh (c : Char) : List Char → List (List Char)
  | [] => [[]]
  | x :: xs =>
    match splitCh c xs with
    | [] => [[x]]
    | r :: rs => if x = c then [] :: r :: rs else (x :: r) :: rs

/-- Python's `s.split(sep)` for a one-character separator `sep`. -/
def pySplit (s : String) (sep : Char) : List String :=
  (splitCh sep s.data).map fun l => ⟨l⟩

/-- Source lines 5-7: `path = __file__.split("/")[:-1]`;
`if not path: path = "."` ; `else: path = "/".join(path)`. -/
def pathDir (file : String) : String :=
  let path := (pySplit file '/').dropLast
  if path = [] then "." else String.intercalate "/" path

/-- Source lines 4-9, the body of the `except:` branch up to the binding of
`_timeit`: import `ffi`, compute the directory of `__file__`, open
`_mpytimer.so` next to it, and resolve the `timeit` symbol with
return-type string "d" and argument-signature string "Ci".
Returns the module state together with the trace of ffi events;
any failure raises out of the module load. -/
def fallbackLoad (env : FFIEnv) (file : String) :
    Except PyExn ModuleState × List Event :=
  if env.importOk then
    match env.openLib (pathDir file ++ "/_mpytimer.so") with
    | .error e => (.error e, [.openLib (pathDir file ++ "/_mpytimer.so")])
    | .ok lib =>
      match env.func lib "d" "timeit" "Ci" with
      | .error e =>
        (.error e, [.openLib (pathDir file ++ "/_mpytimer.so"),
                    .funcLookup lib "d" "timeit" "Ci"])
      | .ok sym =>
        (.ok ⟨lib, sym⟩, [.openLib (pathDir file ++ "/_mpytimer.so"),
                          .funcLookup lib "d" "timeit" "Ci"])
  else (.error env.importErr, [])

/-- Which implementation the module-level name `timeit` ends up bound to:
the compiled module's `timeit` (identified by an abstract handle), or the
ffi fallback definition closed over the fallback module state.  These are
the only possibilities the source defines. -/
inductive TimeitImpl where
  | compiled (handle : Nat)
  | fallback (st : ModuleState)
deriving DecidableEq, Repr

/-- Source lines 1-12: the whole module load.  `importResult` is the
outcome of `from ._fasttimer import timeit` (`.ok h` when the compiled module
is imported with handle `h`, `.error e` when it raises `e`).  On
success the compiled `timeit` is bound; on any exception whatsoever the
`except:` branch runs `fallbackLoad`. -/
def moduleLoad (importResult : Except PyExn Nat) (env : FFIEnv)
    (file : String) : Except PyExn TimeitImpl × List Event :=
  match importResult with
  | .ok h => (.ok (.compiled h), [])
  | .error _ =>
    match fallbackLoad env file with
    | (.error e, tr) => (.error e, tr)
    | (.ok st, tr) => (.ok (.fallback st), tr)

/-- Semantics of invoking a resolved native symbol: given the trampoline
and the repetition count at a start time, produce the raised exception or
the returned double, together with the time at which the call returned. -/
abbrev NativeSem := Trampoline → Nat → Time → Except PyExn ℚ × Time

/-- Outcome of one call to the fallback `timeit`: the raised exception or
returned float, the wall-clock time afterwards, the trampoline-allocation
counter afterwards, the ffi events emitted, and the module-level state
afterwards. -/
structure CallResult where
  result : Except PyExn ℚ
  time : Time
  nextTramp : Nat
  events : List Event
  state : ModuleState

/-- Source lines 10-12, the fallback definition
`def timeit(callback,number=1000000): cb = ffi.callback("v",callback,"");
return _timeit(cb,number)`, parametric in the semantics `nat` of the
resolved native symbol.  `nt` is the trampoline-allocation counter and
`t0` the wall-clock time at the call.  The body constructs one fresh
trampoline around `callback`, invokes the resolved symbol `st.timeitSym`
once with it and `number`, and returns that result unchanged; it rebinds
no module-level state. -/
def timeit (nat : NativeSem) (st : ModuleState) (callback : Callback)
    (number : Nat) (nt : Nat) (t0 : Time) : CallResult :=
  let cb : Trampoline := ⟨nt, callback⟩
  let r := nat cb number t0
  { result := r.1
    time := r.2
    nextTramp := nt + 1
    events := [.mkCallback "v" nt "", .callNative st.timeitSym nt number]
    state := st }

/-- Source line 10: the `number` parameter's default value `1000000`. -/
def timeitDefaultNumber : Nat := 1000000

/-- The fallback `timeit` called with `number` omitted. -/
def timeitDefault (nat : NativeSem) (st : ModuleState) (callback : Callback)
    (nt : Nat) (t0 : Time) : CallResult :=
  timeit nat st callback timeitDefaultNumber nt t0

/-- A sequence of calls to the fallback `timeit`, each described by its
callable and count, run back to back: the wall clock, the
trampoline-allocation counter and the module state of each call are those
left by the previous one; the event traces concatenate. -/
def runTimeits (nat : NativeSem) (st : ModuleState) :
    List (Callback × Nat) → Nat → Time → Nat × List Event × ModuleState
  | [], nt, _t0 => (nt, [], st)
  | c :: cs, nt, t0 =>
    let r := timeit nat st c.1 c.2 nt t0
    let rest := runTimeits nat r.state cs r.nextTramp r.time
    (rest.1, r.events ++ rest.2.1, rest.2.2)

/-- Modelled from the spec: the timing loop exported as symbol `timeit`
by the shared library `_mpytimer.so`, whose C source is not under `src/`.
Per the spec it "invokes the callable that many times back-to-back";
`runCalls cb n t` runs the callable `n` times starting at wall-clock time
`t`, returning the time at which execution stopped and the exception that
aborted it, if any (remaining iterations are not performed). -/
def runCalls (cb : Callback) : Nat → Time → Time × Option PyExn
  | 0, t => (t, none)
  | n + 1, t =>
    match cb t with
    | .error e => (t, some e)
    | .ok t' => runCalls cb n t'

/-- Modelled from the spec: the exported native symbol
`double timeit(void (*callback)(void), int count)` of `_mpytimer.so`
(C source not under `src/`).  It reads the clock, invokes the trampoline's
callable `count` times back-to-back, reads the clock again and returns the
elapsed wall-clock seconds as its double result; an exception raised by
the callable propagates and no duration is returned. -/
def nativeTimeit : NativeSem := fun tramp count t0 =>
  match runCalls tramp.wraps count t0 with
  | (t1, some e) => (.error e, t1)
  | (t1, none) => (.ok (t1 - t0), t1)

/-- The clock times after `k` successful invocations of the callable
starting at time `t`; `none` when some of the first `k` invocations
raises.  Used to say "the callable raises on its `k+1`-st invocation". -/
def okIter (cb : Callback) : Nat → Time → Option Time
  | 0, t => some t
  | n + 1, t =>
    match cb t with
    | .error _ => none
    | .ok t' => okIter cb n t'

/-- The `funcLookup` events of a trace, as `(lib, ret, name, argsig)`. -/
def funcLookups : List Event → List (Nat × String × String × String)
  | [] => []
  | .funcLookup l r n a :: es => (l, r, n, a) :: funcLookups es
  | _ :: es => funcLookups es

/-- The `openLib` events of a trace, as their path arguments. -/
def openLibs : List Event → List String
  | [] => []
  | .openLib p :: es => p :: openLibs es
  | _ :: es => openLibs es

/-- The `callNative` events of a trace, as `(sym, trampId, number)`. -/
def callNatives : List Event → List (Nat × Nat × Nat)
  | [] => []
  | .callNative s c n :: es => (s, c, n) :: callNatives es
  | _ :: es => callNatives es

/-- The trampoline ids of the `mkCallback` events of a trace, in order. -/
def mkCallbackIds : List Event → List Nat
  | [] => []
  | .mkCallback _ i _ :: es => i :: mkCallbackIds es
  | _ :: es => mkCallbackIds es

/-- The `mkCallback` events of a trace, as `(retsig, trampId, extra)`. -/
def mkCallbacks : List Event → List (String × Nat × String)
  | [] => []
  | .mkCallback r i x :: es => (r, i, x) :: mkCallbacks es
  | _ :: es => mkCallbacks es

/-- Helper: projection of the module state out of one call. -/
@[simp] theorem timeit_state (ns : NativeSem) (st : ModuleState)
    (cb : Callback) (number nt : Nat) (t0 : Time) :
    (timeit ns st cb number nt t0).state = st := rfl

/-- Helper: projection of the allocation counter out of one call. -/
@[simp] theorem timeit_nextTramp (ns : NativeSem) (st : ModuleState)
    (cb : Callback) (number nt : Nat) (t0 : Time) :
    (timeit ns st cb number nt t0).nextTramp = nt + 1 := rfl

/-- Helper: projection of the event trace out of one call. -/
@[simp] theorem timeit_events (ns : NativeSem) (st : ModuleState)
    (cb : Callback) (number nt : Nat) (t0 : Time) :
    (timeit ns st cb number nt t0).events
      = [.mkCallback "v" nt "", .callNative st.timeitSym nt number] := rfl

/-- Test environment in which the fallback load succeeds: `import ffi`
works, `ffi.open` yields handle 7 and `lib.func` yields symbol 3. -/
def envOk : FFIEnv where
  importOk := true
  importErr := ⟨"ImportError"⟩
  openLib := fun _ => .ok 7
  func := fun _ _ _ _ => .ok 3

/-- Test environment in which the fallback also fails: `import ffi`
itself raises. -/
def envNoFfi : FFIEnv where
  importOk := false
  importErr := ⟨"ImportError"⟩
  openLib := fun _ => .error ⟨"OSError"⟩
  func := fun _ _ _ _ => .error ⟨"OSError"⟩

/-- C1: the exported `timeit` is the compiled module's `timeit` whenever
the `from ._fasttimer import timeit` import succeeds, and only when that import
raises is the fallback taken; the primary path is tried first. -/
theorem two_tier_resolution (env : FFIEnv) (file : String) :
    (∀ h : Nat, moduleLoad (.ok h) env file = (.ok (.compiled h), [])) ∧
    (∀ e : PyExn, moduleLoad (.error e) env file =
      (match fallbackLoad env file with
       | (.error e', tr) => (.error e', tr)
       | (.ok st, tr) => (.ok (.fallback st), tr))) :=
  ⟨fun _ => rfl, fun _ => rfl⟩

/-- C2: if the compiled import fails and the fallback path also fails,
loading the module itself raises that error to the importer; no third,
purely interpreted implementation is ever bound. -/
theorem no_third_fallback (env : FFIEnv) (file : String) (e e' : PyExn)
    (tr : List Event) (hfb : (fallbackLoad env file) = (.error e', tr)) :
    (moduleLoad (.error e) env file).1 = .error e' := by
  simp [moduleLoad, hfb]

/-- Witness for C2: with `ffi` unavailable, loading after an import error
raises the `ffi` import error. -/
theorem no_third_fallback_witness :
    (moduleLoad (.error ⟨"ImportError"⟩) envNoFfi "bench/fasttimer/__init__.py").1
      = .error ⟨"ImportError"⟩ :=
  no_third_fallback envNoFfi "bench/fasttimer/__init__.py"
    ⟨"ImportError"⟩ ⟨"ImportError"⟩ [] rfl

/-- C3: a successful fallback load resolves exactly one symbol from the
opened library, named `timeit`, with return-type string "d" and
argument-signature string "Ci". -/
theorem symbol_resolution (env : FFIEnv) (file : String) (st : ModuleState)
    (tr : List Event) (h : fallbackLoad env file = (.ok st, tr)) :
    funcLookups tr = [(st.lib, "d", "timeit", "Ci")] := by
  unfold fallbackLoad at h
  split at h
  · split at h
    · simp at h
    · split at h
      · simp at h
      · simp only [Prod.mk.injEq, Except.ok.injEq] at h
        obtain ⟨hst, htr⟩ := h
        subst htr
        subst hst
        rfl
  · simp at h

/-- Witness for C3: the trace of a successful load in `envOk` has exactly
the lookup `(7, 'd', 'timeit', 'Ci')`. -/
theorem symbol_resolution_witness :
    funcLookups [Event.openLib "bench/fasttimer/_mpytimer.so",
      Event.funcLookup 7 "d" "timeit" "Ci"] = [(7, "d", "timeit", "Ci")] :=
  symbol_resolution envOk "bench/fasttimer/__init__.py" ⟨7, 3⟩
    [Event.openLib "bench/fasttimer/_mpytimer.so",
     Event.funcLookup 7 "d" "timeit" "Ci"] rfl

/-- C4: whenever the fallback path runs past `import ffi`, it opens the
shared library at exactly one path: the components of `__file__` before
the last slash joined with "/" ("." when there are none), followed by
"/_mpytimer.so" — the directory of the utility itself. -/
theorem library_adjacent (env : FFIEnv) (file : String)
    (h : env.importOk = true) :
    openLibs (fallbackLoad env file).2
      = [(if (pySplit file '/').dropLast = [] then "."
          else String.intercalate "/" ((pySplit file '/').dropLast))
         ++ "/_mpytimer.so"] := by
  show openLibs (fallbackLoad env file).2 = [pathDir file ++ "/_mpytimer.so"]
  unfold fallbackLoad
  rw [if_pos h]
  rcases henv : env.openLib (pathDir file ++ "/_mpytimer.so") with e | lib
  · simp only [henv, openLibs]
  · rcases hf : env.func lib "d" "timeit" "Ci" with e | sym
    · simp only [henv, hf, openLibs]
    · simp only [henv, hf, openLibs]

/-- Witness for C4: in `envOk`, loading from `bench/fasttimer/__init__.py`
opens `bench/fasttimer/_mpytimer.so`. -/
theorem library_adjacent_witness :
    openLibs (fallbackLoad envOk "bench/fasttimer/__init__.py").2
      = [(if (pySplit "bench/fasttimer/__init__.py" '/').dropLast = [] then "."
          else String.intercalate "/"
            ((pySplit "bench/fasttimer/__init__.py" '/').dropLast))
         ++ "/_mpytimer.so"] :=
  library_adjacent envOk "bench/fasttimer/__init__.py" rfl

/-- C5: for every callable, count and native-symbol semantics, the
fallback `timeit` invokes the resolved native symbol exactly once, passing
the trampoline wrapping the callable and the count, and returns the native
call's result unchanged; the count defaults to `1000000` when omitted. -/
theorem fallback_call_behavior (ns : NativeSem) (st : ModuleState)
    (callback : Callback) (number nt : Nat) (t0 : Time) :
    (timeit ns st callback number nt t0).result
        = (ns ⟨nt, callback⟩ number t0).1
    ∧ callNatives (timeit ns st callback number nt t0).events
        = [(st.timeitSym, nt, number)]
    ∧ timeitDefault ns st callback nt t0 = timeit ns st callback 1000000 nt t0 :=
  ⟨rfl, rfl, rfl⟩

/-- Helper: if the first `k` invocations of the callable succeed and the
next one raises `e`, then running more than `k` invocations stops with
exception `e`. -/
theorem runCalls_error_of_okIter (cb : Callback) :
    ∀ (k number : Nat) (t0 t' : Time) (e : PyExn), k < number →
      okIter cb k t0 = some t' → cb t' = .error e →
      ∃ t1, runCalls cb number t0 = (t1, some e) := by
  intro k
  induction k with
  | zero =>
    intro number t0 t' e hk hok herr
    obtain ⟨m, rfl⟩ := Nat.exists_eq_add_of_lt hk
    simp only [okIter, Option.some.injEq] at hok
    subst hok
    exact ⟨t0, by simp [runCalls, herr]⟩
  | succ k ih =>
    intro number t0 t' e hk hok herr
    obtain ⟨m, rfl⟩ := Nat.exists_eq_add_of_lt hk
    simp only [okIter] at hok
    rcases hcb : cb t0 with e0 | t1
    · rw [hcb] at hok; simp at hok
    · rw [hcb] at hok
      obtain ⟨t2, hrc⟩ := ih (k + 1 + m) t1 t' e (by omega) hok herr
      exact ⟨t2, by simpa [runCalls, hcb] using hrc⟩

/-- C6 (the native loop is modelled from the spec, its C source being
absent from `src/`): if the callable raises on its `k+1`-st invocation
with `k+1 ≤ number`, the fallback `timeit` raises that same exception and
returns no float value. -/
theorem callable_exception_propagates (st : ModuleState) (cb : Callback)
    (number nt k : Nat) (t0 t' : Time) (e : PyExn) (hk : k < number)
    (hok : okIter cb k t0 = some t') (herr : cb t' = .error e) :
    (timeit nativeTimeit st cb number nt t0).result = .error e := by
  obtain ⟨t1, hrc⟩ := runCalls_error_of_okIter cb k number t0 t' e hk hok herr
  simp [timeit, nativeTimeit, hrc]

/-- Witness for C6: a callable raising `ValueError` on its first
invocation makes `timeit` raise `ValueError`. -/
theorem callable_exception_propagates_witness :
    (timeit nativeTimeit ⟨7, 3⟩ (fun _ => .error ⟨"ValueError"⟩) 3 0 0).result
      = .error ⟨"ValueError"⟩ :=
  callable_exception_propagates ⟨7, 3⟩ (fun _ => .error ⟨"ValueError"⟩)
    3 0 0 0 0 ⟨"ValueError"⟩ (by decide) rfl rfl

/-- Helper: the wall clock never runs backwards across the native loop
when each invocation of the callable returns at a later time. -/
theorem runCalls_le (cb : Callback)
    (hcb : ∀ t t', cb t = .ok t' → t ≤ t') :
    ∀ (n : Nat) (t0 : Time), t0 ≤ (runCalls cb n t0).1 := by
  intro n
  induction n with
  | zero => intro t0; simp [runCalls]
  | succ n ih =>
    intro t0
    rcases hcb0 : cb t0 with e | t1
    · simp [runCalls, hcb0]
    · calc t0 ≤ t1 := hcb t0 t1 hcb0
        _ ≤ (runCalls cb n t1).1 := ih t1
        _ = (runCalls cb (n + 1) t0).1 := by simp [runCalls, hcb0]

/-- C7 (the native loop is modelled from the spec, its C source being
absent from `src/`): for every callable that returns at a time no earlier
than it was invoked, and every count, a float returned by the fallback
`timeit` is non-negative. -/
theorem result_nonneg (st : ModuleState) (cb : Callback) (number nt : Nat)
    (t0 : Time) (d : ℚ) (hcb : ∀ t t', cb t = .ok t' → t ≤ t')
    (hres : (timeit nativeTimeit st cb number nt t0).result = .ok d) :
    0 ≤ d := by
  have hle := runCalls_le cb hcb number t0
  simp only [timeit, nativeTimeit] at hres
  rcases hrc : runCalls cb number t0 with ⟨t1, exn⟩
  rw [hrc] at hres hle
  cases exn with
  | some e => simp at hres
  | none =>
    simp only [Except.ok.injEq] at hres
    subst hres
    simp only at hle
    linarith

/-- Witness for C7: a callable advancing the clock by one second per call,
invoked twice from time 0, yields the non-negative duration 2. -/
theorem result_nonneg_witness :
    (timeit nativeTimeit ⟨7, 3⟩ (fun t => .ok (t + 1)) 2 0 0).result = .ok 2
    ∧ (0 : ℚ) ≤ 2 := by
  have hres : (timeit nativeTimeit ⟨7, 3⟩ (fun t => .ok (t + 1)) 2 0 0).result
      = .ok 2 := by
    simp only [timeit, nativeTimeit, runCalls]
    norm_num
  exact ⟨hres, result_nonneg ⟨7, 3⟩ (fun t => .ok (t + 1)) 2 0 0 2
    (by intro t t' h; injection h with h; subst h; linarith) hres⟩

/-- Helper: running a sequence of fallback `timeit` calls leaves the
module-level state exactly as it was. -/
theorem runTimeits_state (ns : NativeSem) :
    ∀ (calls : List (Callback × Nat)) (st : ModuleState) (nt : Nat)
      (t0 : Time), (runTimeits ns st calls nt t0).2.2 = st := by
  intro calls
  induction calls with
  | nil => intro st nt t0; rfl
  | cons c cs ih =>
    intro st nt t0
    simp only [runTimeits]
    exact ih st (nt + 1) (timeit ns st c.1 c.2 nt t0).time

/-- C8: calls to the fallback `timeit` leave all module-level state
unchanged — the library handle and the resolved symbol bound at module
load are never rebound, reopened or re-resolved by any sequence of
subsequent calls. -/
theorem timeit_frame (ns : NativeSem) (st : ModuleState)
    (calls : List (Callback × Nat)) (nt : Nat) (t0 : Time) :
    (runTimeits ns st calls nt t0).2.2 = st
    ∧ (∀ (cb : Callback) (number : Nat),
        (timeit ns st cb number nt t0).state = st
        ∧ openLibs (timeit ns st cb number nt t0).events = []
        ∧ funcLookups (timeit ns st cb number nt t0).events = []) :=
  ⟨runTimeits_state ns calls st nt t0, fun _ _ => ⟨rfl, rfl, rfl⟩⟩

/-- C9: the bare `except:` diverts to the fallback on ANY exception raised
by the compiled import — whatever its class, not only module-not-found —
binding the fallback `timeit` whenever the fallback load succeeds. -/
theorem bare_except_any_exception (e : PyExn) (env : FFIEnv) (file : String)
    (st : ModuleState) (tr : List Event)
    (hfb : fallbackLoad env file = (.ok st, tr)) :
    moduleLoad (.error e) env file = (.ok (.fallback st), tr) := by
  simp [moduleLoad, hfb]

/-- Witness for C9: even an internal `ZeroDivisionError` from the compiled module
diverts to the (here successful) fallback. -/
theorem bare_except_any_exception_witness :
    moduleLoad (.error ⟨"ZeroDivisionError"⟩) envOk "bench/fasttimer/__init__.py"
      = (.ok (.fallback ⟨7, 3⟩),
         [.openLib "bench/fasttimer/_mpytimer.so",
          .funcLookup 7 "d" "timeit" "Ci"]) :=
  bare_except_any_exception ⟨"ZeroDivisionError"⟩ envOk
    "bench/fasttimer/__init__.py" ⟨7, 3⟩
    [.openLib "bench/fasttimer/_mpytimer.so",
     .funcLookup 7 "d" "timeit" "Ci"] rfl

/-- Helper: `mkCallbackIds` distributes over trace concatenation. -/
theorem mkCallbackIds_append (a b : List Event) :
    mkCallbackIds (a ++ b) = mkCallbackIds a ++ mkCallbackIds b := by
  induction a with
  | nil => rfl
  | cons e es ih => cases e <;> simp [mkCallbackIds, ih]

/-- Helper: a sequence of fallback `timeit` calls starting with allocation
counter `nt` constructs trampolines `nt, nt+1, …` in order, one per call,
and leaves the counter at `nt + number of calls`. -/
theorem runTimeits_trampolines (ns : NativeSem) :
    ∀ (calls : List (Callback × Nat)) (st : ModuleState) (nt : Nat)
      (t0 : Time),
      mkCallbackIds (runTimeits ns st calls nt t0).2.1
          = List.range' nt calls.length
      ∧ (runTimeits ns st calls nt t0).1 = nt + calls.length := by
  intro calls
  induction calls with
  | nil => intro st nt t0; exact ⟨rfl, rfl⟩
  | cons c cs ih =>
    intro st nt t0
    obtain ⟨h1, h2⟩ := ih st (nt + 1) (timeit ns st c.1 c.2 nt t0).time
    constructor
    · simp only [runTimeits, timeit_state, timeit_nextTramp, timeit_events,
        mkCallbackIds_append, mkCallbackIds, List.length_cons,
        List.range'_succ, List.cons_append, List.nil_append]
      exact congrArg (List.cons nt) h1
    · simp only [runTimeits, timeit_state, timeit_nextTramp, List.length_cons]
      omega

/-- C10: every invocation of the fallback `timeit` constructs one fresh
trampoline via `ffi.callback("v", callback, "")`; across any sequence of
calls the trampolines are pairwise distinct (ids `nt, nt+1, …`), never
cached or reused, even for the same callable. -/
theorem fresh_trampoline_per_call (ns : NativeSem) (st : ModuleState)
    (calls : List (Callback × Nat)) (nt : Nat) (t0 : Time) :
    mkCallbackIds (runTimeits ns st calls nt t0).2.1
        = List.range' nt calls.length
    ∧ (mkCallbackIds (runTimeits ns st calls nt t0).2.1).Nodup
    ∧ (runTimeits ns st calls nt t0).1 = nt + calls.length
    ∧ (∀ (cb : Callback) (number : Nat),
        mkCallbacks (timeit ns st cb number nt t0).events = [("v", nt, "")]
        ∧ (timeit ns st cb number nt t0).nextTramp = nt + 1) := by
  obtain ⟨h1, h2⟩ := runTimeits_trampolines ns calls st nt t0
  exact ⟨h1, h1 ▸ List.nodup_range' nt calls.length, h2,
    fun _ _ => ⟨rfl, rfl⟩⟩

end Fasttimer
